import Mathlib

/-!
Shallow embedding of the RIFF/WAVE chunk walker of
`Source/MainComponent.cpp` (`MainComponent::displayIxmlFromFile`).

Modelling conventions:

* The input stream is modelled as the list of bytes still in front of the
  read cursor (`List Nat`, each element a byte value; values are reduced
  modulo 256 wherever they are numerically interpreted).  The JUCE
  `FileInputStream` is forward-only here: every operation the source
  performs (`read`, `readShort`, `readInt`, `readInt64`,
  `skipNextBytes`, `isExhausted`) is a `take`/`drop` on that list, with
  the JUCE clamping semantics: a read consumes `min n remaining` bytes,
  the fixed-width numeric reads return 0 when fewer than `n` bytes were
  available (see `juce::InputStream::readInt` and friends), and
  `skipNextBytes` stops at end of stream.
* Text is kept at the byte level: `juce::String::fromUTF8` is modelled
  as the identity on the byte list (UTF-8 decoding is injective on the
  byte sequences involved), and `juce::String::trim` as trimming ASCII
  whitespace after truncating at the first NUL, which is how a
  NUL-padded fixed-width `bext` field surfaces through a JUCE string.
* The external XML facility (`juce::XmlDocument::parse` followed by
  `toString`) is a third-party library, not code of this repository; it
  is abstracted as an oracle `xmlp : List Nat → Option (List Nat)`:
  `some doc` means the payload parsed and `doc` is its canonical
  re-serialization, `none` means the parse failed.  Every theorem
  quantifies over the oracle; concrete instances use `noXml`, the
  oracle that always fails (as JUCE does on non-XML text).
* The UI display is abstracted into the structured outcome
  `ParseOutcome`: the three early-exit error texts of the source become
  the three error constructors, and the final assembled display text
  becomes `.done` carrying the walk state the assembly reads
  (lines 217-252 of the source).
-/

namespace IXMLViewer

/-- The four bytes of the tag "RIFF" (line 80 of the source). -/
def riffTag : List Nat := [82, 73, 70, 70]

/-- The four bytes of the tag "WAVE" (line 91). -/
def waveTag : List Nat := [87, 65, 86, 69]

/-- The four bytes of the chunk id "fmt " (line 120). -/
def fmtTag : List Nat := [102, 109, 116, 32]

/-- The four bytes of the chunk id "bext" (line 146). -/
def bextTag : List Nat := [98, 101, 120, 116]

/-- The four bytes of the chunk id "iXML" (line 176). -/
def ixmlTag : List Nat := [105, 88, 77, 76]

/-- Little-endian unsigned value of a byte list (each entry reduced mod 256,
as a byte is). -/
def uintLE (bs : List Nat) : Nat :=
  bs.foldr (fun b acc => b % 256 + 256 * acc) 0

/-- Reinterpret an unsigned value as a `w`-bit two's-complement signed
integer, as the C++ `short` / `juce::int32` / `juce::int64` reads do. -/
def toSigned (w : Nat) (u : Nat) : Int :=
  let v := u % 2 ^ w
  if v < 2 ^ (w - 1) then (v : Int) else (v : Int) - 2 ^ w

/-- One fixed-width little-endian signed read of `n` bytes, with the JUCE
`InputStream::readShort` / `readInt` / `readInt64` semantics: consume
`min n remaining` bytes; return the decoded value when all `n` bytes were
available and 0 otherwise. -/
def readSigned (n : Nat) (s : List Nat) : Int × List Nat :=
  (if n ≤ s.length then toSigned (8 * n) (uintLE (s.take n)) else 0, s.drop n)

/-- The little-endian 4-byte encoding of a natural number (used to build
concrete chunk headers in theorems; the source only decodes). -/
def le32 (n : Nat) : List Nat :=
  [n % 256, n / 256 % 256, n / 65536 % 256, n / 16777216 % 256]

/-- ASCII whitespace as `juce::String::trim` removes it. -/
def isSpaceByte (b : Nat) : Bool :=
  b = 32 || (9 ≤ b && b ≤ 13)

/-- A fixed-width `bext` text field as it surfaces through
`juce::String::fromUTF8(...).trim()` (line 156): truncate at the first NUL
byte, then strip leading and trailing ASCII whitespace. -/
def trimField (bs : List Nat) : List Nat :=
  let t := (bs.takeWhile (fun b => b ≠ 0)).dropWhile (fun b => isSpaceByte b)
  (t.reverse.dropWhile (fun b => isSpaceByte b)).reverse

/-- The fields of the `fmt ` chunk the source retains (lines 124-129).
Byte rate and block align are read past but not kept. -/
structure FormatInfo where
  audioFormat : Int
  numChannels : Int
  sampleRate : Int
  bitsPerSample : Int
deriving DecidableEq, Repr

/-- The fields of the `bext` chunk the source reads (lines 161-166). -/
structure BextInfo where
  description : List Nat
  originator : List Nat
  originatorRef : List Nat
  originationDate : List Nat
  originationTime : List Nat
  timeReference : Int
deriving DecidableEq, Repr

/-- The mutable locals of the chunk-walk loop (lines 97-101): the format
and bext summaries are modelled as the lists of records appended to them
(one per decoded chunk; `formatSummary.isNotEmpty` becomes
`fmtInfos ≠ []`), the two found-flags and the iXML content directly. -/
structure WalkState where
  fmtInfos : List FormatInfo
  bextFound : Bool
  bexts : List BextInfo
  ixmlFound : Bool
  ixmlContent : List Nat
deriving DecidableEq, Repr

/-- The locals as initialised before the loop (lines 97-101). -/
def initState : WalkState :=
  { fmtInfos := [], bextFound := false, bexts := [], ixmlFound := false,
    ixmlContent := [] }

/-- Outcome of `displayIxmlFromFile`: the three early-exit error texts of
the source (lines 82, 93, 114) and the final assembled display, the latter
carrying the walk state that the assembly at lines 217-252 reads. -/
inductive ParseOutcome where
  | invalidRiff : ParseOutcome
  | invalidWave : ParseOutcome
  | invalidChunkSize : ParseOutcome
  | done : WalkState → ParseOutcome
deriving DecidableEq, Repr

/-- The `fmt ` branch body (lines 124-129): two shorts, an int, four
skipped bytes (byte rate), two skipped bytes (block align), one short —
16 bytes of fixed layout, consumed unconditionally. -/
def fmtStep (s : List Nat) : FormatInfo × List Nat :=
  let r1 := readSigned 2 s
  let r2 := readSigned 2 r1.2
  let r3 := readSigned 4 r2.2
  let s4 := r3.2.drop 4
  let s5 := s4.drop 2
  let r6 := readSigned 2 s5
  ({ audioFormat := r1.1, numChannels := r2.1, sampleRate := r3.1,
     bitsPerSample := r6.1 }, r6.2)

/-- The `bext` branch body (lines 151-166): five fixed-width text fields
(256+32+32+10+8 bytes) and an 8-byte signed time reference — 346 bytes of
fixed layout, consumed unconditionally. -/
def bextStep (s : List Nat) : BextInfo × List Nat :=
  let d := trimField (s.take 256)
  let s1 := s.drop 256
  let og := trimField (s1.take 32)
  let s2 := s1.drop 32
  let orf := trimField (s2.take 32)
  let s3 := s2.drop 32
  let dt := trimField (s3.take 10)
  let s4 := s3.drop 10
  let tm := trimField (s4.take 8)
  let s5 := s4.drop 8
  let r6 := readSigned 8 s5
  ({ description := d, originator := og, originatorRef := orf,
     originationDate := dt, originationTime := tm, timeReference := r6.1 },
   r6.2)

theorem readSigned_snd (n : Nat) (s : List Nat) :
    (readSigned n s).2 = s.drop n := rfl

theorem fmtStep_snd (s : List Nat) : (fmtStep s).2 = s.drop 16 := by
  simp [fmtStep, readSigned_snd, List.drop_drop]

theorem bextStep_snd (s : List Nat) : (bextStep s).2 = s.drop 346 := by
  simp [bextStep, readSigned_snd, List.drop_drop]

/-- The chunk-walk loop (lines 104-215).  Each iteration: exit when the
stream is exhausted; read 4 id bytes, breaking on a short read; read the
little-endian signed 32-bit size, aborting the whole walk when it is
negative; then dispatch on the id.  The `fmt ` and `bext` decoders consume
their fixed layouts and skip any surplus the declared size announces
beyond them; the `iXML` decoder reads exactly the declared size, keeping
the payload only when it was fully read; an unrecognized chunk is skipped
by its declared size plus one padding byte when that size is odd.  Only
the unrecognized branch has the padding skip (lines 210-213). -/
def wavLoop (xmlp : List Nat → Option (List Nat)) (s : List Nat)
    (acc : WalkState) : ParseOutcome :=
  if s.isEmpty then .done acc
  else if s.length < 4 then .done acc
  else
    let cid := s.take 4
    let szr := readSigned 4 (s.drop 4)
    let chunkSize := szr.1
    let s2 := szr.2
    if chunkSize < 0 then .invalidChunkSize
    else if cid = fmtTag then
      let fr := fmtStep s2
      let s4 := if chunkSize > 16 then fr.2.drop (chunkSize - 16).toNat
                else fr.2
      wavLoop xmlp s4 { acc with fmtInfos := acc.fmtInfos ++ [fr.1] }
    else if cid = bextTag then
      let br := bextStep s2
      let s4 := if chunkSize > 346 then br.2.drop (chunkSize - 346).toNat
                else br.2
      wavLoop xmlp s4
        { acc with bextFound := true, bexts := acc.bexts ++ [br.1] }
    else if cid = ixmlTag then
      let n := chunkSize.toNat
      let chunkData := s2.take n
      let s3 := s2.drop n
      if chunkData.length = n then
        wavLoop xmlp s3
          { acc with ixmlFound := true,
                     ixmlContent := (xmlp chunkData).getD chunkData }
      else
        wavLoop xmlp s3 { acc with ixmlFound := true }
    else
      let s3 := s2.drop chunkSize.toNat
      let s4 := if chunkSize % 2 ≠ 0 then s3.drop 1 else s3
      wavLoop xmlp s4 acc
termination_by s.length
decreasing_by
  all_goals
    simp only [readSigned_snd, fmtStep_snd, bextStep_snd, List.drop_drop]
  all_goals
    first
      | (split <;> (simp only [List.length_drop]; omega))
      | (simp only [List.length_drop]; omega)

/-- The whole of `displayIxmlFromFile` on an in-memory byte stream
(lines 78-215): check the "RIFF" tag, skip the 4-byte overall size, check
the "WAVE" tag, then run the chunk walk from a fresh state. -/
def displayIxmlFromFile (xmlp : List Nat → Option (List Nat))
    (s : List Nat) : ParseOutcome :=
  if s.length < 4 ∨ s.take 4 ≠ riffTag then .invalidRiff
  else
    let s1 := (s.drop 4).drop 4
    if s1.length < 4 ∨ s1.take 4 ≠ waveTag then .invalidWave
    else wavLoop xmlp (s1.drop 4) initState

/-- The XML oracle that always fails to parse, as `juce::XmlDocument`
does on any non-XML text; used to instantiate concrete inputs. -/
def noXml : List Nat → Option (List Nat) := fun _ => none

/-- A chunk as laid out in a RIFF stream: id, little-endian declared
size, payload (no padding byte included). -/
def mkChunk (cid : List Nat) (payload : List Nat) : List Nat :=
  cid ++ le32 payload.length ++ payload

/-- The 12-byte RIFF/WAVE envelope with a zero overall-size field. -/
def wavPreamble : List Nat := riffTag ++ [0, 0, 0, 0] ++ waveTag

/-- Whether the final display shows decoded fmt data, i.e.
`formatSummary.isNotEmpty()` at line 219. -/
def ParseOutcome.fmtShown : ParseOutcome → Bool
  | .done r => !r.fmtInfos.isEmpty
  | _ => false

/-- Whether the final display shows bext data (`bextFound`, line 230). -/
def ParseOutcome.bextShown : ParseOutcome → Bool
  | .done r => r.bextFound
  | _ => false

/-- Whether the final display shows iXML data (`ixmlFound`, line 241). -/
def ParseOutcome.ixmlShown : ParseOutcome → Bool
  | .done r => r.ixmlFound
  | _ => false

theorem le32_length (k : Nat) : (le32 k).length = 4 := rfl

theorem uintLE_le32 (k : Nat) : uintLE (le32 k) = k % 4294967296 := by
  simp only [uintLE, le32, List.foldr]
  omega

theorem toSigned_le32 (k : Nat) (h : k < 2147483648) :
    toSigned 32 (uintLE (le32 k)) = (k : Int) := by
  rw [uintLE_le32]
  simp only [toSigned]
  omega

theorem wavLoop_nil (xmlp : List Nat → Option (List Nat)) (acc : WalkState) :
    wavLoop xmlp [] acc = .done acc := by
  rw [wavLoop.eq_def]
  rfl

theorem wavLoop_short (xmlp : List Nat → Option (List Nat)) (s : List Nat)
    (acc : WalkState) (h : s.length < 4) : wavLoop xmlp s acc = .done acc := by
  rw [wavLoop.eq_def]
  by_cases hE : s.isEmpty
  · simp [hE]
  · simp [hE, h]

theorem wavLoop_step (xmlp : List Nat → Option (List Nat))
    (cid szb t : List Nat) (acc : WalkState)
    (hc : cid.length = 4) (hs : szb.length = 4) :
    wavLoop xmlp (cid ++ (szb ++ t)) acc =
      (if toSigned 32 (uintLE szb) < 0 then ParseOutcome.invalidChunkSize
       else if cid = fmtTag then
         wavLoop xmlp
           (if toSigned 32 (uintLE szb) > 16 then
              (fmtStep t).2.drop (toSigned 32 (uintLE szb) - 16).toNat
            else (fmtStep t).2)
           { acc with fmtInfos := acc.fmtInfos ++ [(fmtStep t).1] }
       else if cid = bextTag then
         wavLoop xmlp
           (if toSigned 32 (uintLE szb) > 346 then
              (bextStep t).2.drop (toSigned 32 (uintLE szb) - 346).toNat
            else (bextStep t).2)
           { acc with bextFound := true,
                      bexts := acc.bexts ++ [(bextStep t).1] }
       else if cid = ixmlTag then
         (if (t.take (toSigned 32 (uintLE szb)).toNat).length
              = (toSigned 32 (uintLE szb)).toNat then
            wavLoop xmlp (t.drop (toSigned 32 (uintLE szb)).toNat)
              { acc with ixmlFound := true,
                         ixmlContent :=
                           (xmlp (t.take (toSigned 32 (uintLE szb)).toNat)).getD
                             (t.take (toSigned 32 (uintLE szb)).toNat) }
          else
            wavLoop xmlp (t.drop (toSigned 32 (uintLE szb)).toNat)
              { acc with ixmlFound := true })
       else
         wavLoop xmlp
           (if toSigned 32 (uintLE szb) % 2 ≠ 0 then
              (t.drop (toSigned 32 (uintLE szb)).toNat).drop 1
            else t.drop (toSigned 32 (uintLE szb)).toNat)
           acc) := by
  have hne : (cid ++ (szb ++ t)).isEmpty = false := by
    rcases cid with _ | ⟨a, l⟩
    · simp at hc
    · rfl
  have hlen : ¬ (cid ++ (szb ++ t)).length < 4 := by
    simp [hc]
  have h1 : (cid ++ (szb ++ t)).take 4 = cid := List.take_left' hc
  have h2 : (cid ++ (szb ++ t)).drop 4 = szb ++ t := List.drop_left' hc
  have h3 : readSigned 4 (szb ++ t) = (toSigned 32 (uintLE szb), t) := by
    have h4 : (4 : Nat) ≤ (szb ++ t).length := by simp [hs]
    simp [readSigned, List.take_left' hs, List.drop_left' hs, h4]
    intro h5
    exact absurd h5 (by omega)
  rw [wavLoop.eq_def]
  simp only [hne, hlen, h1, h2, h3, Bool.false_eq_true, if_false]

theorem wavLoop_negSize (xmlp : List Nat → Option (List Nat))
    (cid szb t : List Nat) (acc : WalkState)
    (hc : cid.length = 4) (hs : szb.length = 4)
    (hneg : toSigned 32 (uintLE szb) < 0) :
    wavLoop xmlp (cid ++ (szb ++ t)) acc = .invalidChunkSize := by
  rw [wavLoop_step xmlp cid szb t acc hc hs, if_pos hneg]

theorem wavLoop_fmt (xmlp : List Nat → Option (List Nat)) (k : Nat)
    (t : List Nat) (acc : WalkState) (hk : k < 2147483648) :
    wavLoop xmlp (fmtTag ++ (le32 k ++ t)) acc =
      wavLoop xmlp (t.drop (max 16 k))
        { acc with fmtInfos := acc.fmtInfos ++ [(fmtStep t).1] } := by
  rw [wavLoop_step xmlp fmtTag (le32 k) t acc rfl rfl, toSigned_le32 k hk]
  have h0 : ¬ ((k : Int) < 0) := by omega
  rw [if_neg h0, if_pos rfl]
  by_cases h16 : (k : Int) > 16
  · rw [if_pos h16, fmtStep_snd, List.drop_drop]
    have he : 16 + ((k : Int) - 16).toNat = max 16 k := by omega
    rw [he]
  · rw [if_neg h16, fmtStep_snd]
    have he : (16 : Nat) = max 16 k := by omega
    rw [← he]

theorem wavLoop_bext (xmlp : List Nat → Option (List Nat)) (k : Nat)
    (t : List Nat) (acc : WalkState) (hk : k < 2147483648) :
    wavLoop xmlp (bextTag ++ (le32 k ++ t)) acc =
      wavLoop xmlp (t.drop (max 346 k))
        { acc with bextFound := true,
                   bexts := acc.bexts ++ [(bextStep t).1] } := by
  rw [wavLoop_step xmlp bextTag (le32 k) t acc rfl rfl, toSigned_le32 k hk]
  have h0 : ¬ ((k : Int) < 0) := by omega
  have hne : ¬ (bextTag = fmtTag) := by decide
  rw [if_neg h0, if_neg hne, if_pos rfl]
  by_cases h346 : (k : Int) > 346
  · rw [if_pos h346, bextStep_snd, List.drop_drop]
    have he : 346 + ((k : Int) - 346).toNat = max 346 k := by omega
    rw [he]
  · rw [if_neg h346, bextStep_snd]
    have he : (346 : Nat) = max 346 k := by omega
    rw [← he]

theorem wavLoop_ixml_full (xmlp : List Nat → Option (List Nat))
    (p r : List Nat) (acc : WalkState) (hp : p.length < 2147483648) :
    wavLoop xmlp (ixmlTag ++ (le32 p.length ++ (p ++ r))) acc =
      wavLoop xmlp r
        { acc with ixmlFound := true,
                   ixmlContent := (xmlp p).getD p } := by
  rw [wavLoop_step xmlp ixmlTag (le32 p.length) (p ++ r) acc rfl rfl,
      toSigned_le32 p.length hp]
  have h0 : ¬ ((p.length : Int) < 0) := by omega
  have hne1 : ¬ (ixmlTag = fmtTag) := by decide
  have hne2 : ¬ (ixmlTag = bextTag) := by decide
  have htn : ((p.length : Int)).toNat = p.length := by omega
  rw [if_neg h0, if_neg hne1, if_neg hne2, if_pos rfl, htn,
      List.take_left' rfl, List.drop_left' rfl, if_pos rfl]

theorem wavLoop_ixml_shortRead (xmlp : List Nat → Option (List Nat))
    (k : Nat) (t : List Nat) (acc : WalkState)
    (ht : t.length < k) (hk : k < 2147483648) :
    wavLoop xmlp (ixmlTag ++ (le32 k ++ t)) acc =
      .done { acc with ixmlFound := true } := by
  rw [wavLoop_step xmlp ixmlTag (le32 k) t acc rfl rfl, toSigned_le32 k hk]
  have h0 : ¬ ((k : Int) < 0) := by omega
  have hne1 : ¬ (ixmlTag = fmtTag) := by decide
  have hne2 : ¬ (ixmlTag = bextTag) := by decide
  have htn : ((k : Int)).toNat = k := by omega
  have hfull : ¬ ((t.take k).length = k) := by
    simp [List.length_take]
    omega
  have hdrop : t.drop k = [] := by
    apply List.drop_eq_nil_of_le
    omega
  rw [if_neg h0, if_neg hne1, if_neg hne2, if_pos rfl, htn, if_neg hfull,
      hdrop, wavLoop_nil]

theorem wavLoop_unrecognized (xmlp : List Nat → Option (List Nat))
    (cid : List Nat) (k : Nat) (p r : List Nat) (acc : WalkState)
    (hc : cid.length = 4)
    (hne1 : cid ≠ fmtTag) (hne2 : cid ≠ bextTag) (hne3 : cid ≠ ixmlTag)
    (hp : p.length = k) (hk : k < 2147483648) :
    wavLoop xmlp (cid ++ (le32 k ++ (p ++ r))) acc =
      wavLoop xmlp (if k % 2 = 1 then r.drop 1 else r) acc := by
  rw [wavLoop_step xmlp cid (le32 k) (p ++ r) acc hc rfl, toSigned_le32 k hk]
  have h0 : ¬ ((k : Int) < 0) := by omega
  have htn : ((k : Int)).toNat = k := by omega
  rw [if_neg h0, if_neg hne1, if_neg hne2, if_neg hne3, htn,
      List.drop_left' hp]
  by_cases hodd : k % 2 = 1
  · have hio : (k : Int) % 2 ≠ 0 := by omega
    rw [if_pos hio, if_pos hodd]
  · have hio : ¬ ((k : Int) % 2 ≠ 0) := by omega
    rw [if_neg hio, if_neg hodd]

theorem wavLoop_unrecognized_eof (xmlp : List Nat → Option (List Nat))
    (cid szb t : List Nat) (acc : WalkState)
    (hc : cid.length = 4) (hs : szb.length = 4)
    (hne1 : cid ≠ fmtTag) (hne2 : cid ≠ bextTag) (hne3 : cid ≠ ixmlTag)
    (h0 : ¬ toSigned 32 (uintLE szb) < 0)
    (ht : t.length ≤ (toSigned 32 (uintLE szb)).toNat) :
    wavLoop xmlp (cid ++ (szb ++ t)) acc = .done acc := by
  rw [wavLoop_step xmlp cid szb t acc hc hs]
  have hdrop : t.drop (toSigned 32 (uintLE szb)).toNat = [] :=
    List.drop_eq_nil_of_le ht
  rw [if_neg h0, if_neg hne1, if_neg hne2, if_neg hne3, hdrop]
  by_cases hio : toSigned 32 (uintLE szb) % 2 ≠ 0
  · rw [if_pos hio, List.drop_nil, wavLoop_nil]
  · rw [if_neg hio, wavLoop_nil]

theorem displayIxml_walk (xmlp : List Nat → Option (List Nat))
    (rest : List Nat) :
    displayIxmlFromFile xmlp (wavPreamble ++ rest) =
      wavLoop xmlp rest initState := by
  simp [displayIxmlFromFile, wavPreamble, riffTag, waveTag]
  rw [if_neg (by omega), if_neg (by omega)]

theorem mkChunk_append (cid p r : List Nat) :
    mkChunk cid p ++ r = cid ++ (le32 p.length ++ (p ++ r)) := by
  simp [mkChunk, List.append_assoc]

/-- C5: for every iXML chunk whose payload is fully read (the whole
declared size is present in the stream), the walk continues with
found=true and the reported content equal to the canonical
re-serialization when the XML oracle succeeds and to the raw decoded
payload unchanged when it fails; a malformed payload is never an error:
a file whose only chunk is such an iXML chunk ends in `.done`, whatever
the oracle answered. -/
theorem claim5_ixml_content (xmlp : List Nat → Option (List Nat))
    (p : List Nat) (hp : p.length < 2147483648) :
    (∀ (r : List Nat) (acc : WalkState),
        wavLoop xmlp (mkChunk ixmlTag p ++ r) acc =
          wavLoop xmlp r
            { acc with ixmlFound := true,
                       ixmlContent := (xmlp p).getD p }) ∧
      displayIxmlFromFile xmlp (wavPreamble ++ mkChunk ixmlTag p) =
        .done { initState with ixmlFound := true,
                               ixmlContent := (xmlp p).getD p } := by
  have hstep : ∀ (r : List Nat) (acc : WalkState),
      wavLoop xmlp (mkChunk ixmlTag p ++ r) acc =
        wavLoop xmlp r
          { acc with ixmlFound := true, ixmlContent := (xmlp p).getD p } := by
    intro r acc
    rw [mkChunk_append, wavLoop_ixml_full xmlp p r acc hp]
  refine ⟨hstep, ?_⟩
  have h2 : mkChunk ixmlTag p = mkChunk ixmlTag p ++ [] := by simp
  rw [displayIxml_walk, h2, hstep, wavLoop_nil]

/-- Witness for C5 at the spec's own test vector: an iXML chunk holding
the plain text "not xml", with the always-failing XML oracle; the file
parses to done with found=true and the raw text unchanged. -/
theorem claim5_witness :
    ([110, 111, 116, 32, 120, 109, 108] : List Nat).length < 2147483648 ∧
      displayIxmlFromFile noXml
          (wavPreamble ++ mkChunk ixmlTag [110, 111, 116, 32, 120, 109, 108]) =
        .done { initState with
                  ixmlFound := true,
                  ixmlContent := [110, 111, 116, 32, 120, 109, 108] } :=
  ⟨by decide,
   by
     have h :=
       (claim5_ixml_content noXml [110, 111, 116, 32, 120, 109, 108]
         (by decide)).2
     simpa [noXml] using h⟩

/-- C6: when fewer than 4 bytes remain where the next chunk id would be
read (including zero bytes), the walk terminates normally with the state
accumulated so far, and no error outcome is produced. -/
theorem claim6_truncated_trailing (xmlp : List Nat → Option (List Nat))
    (s : List Nat) (acc : WalkState) (h : s.length < 4) :
    wavLoop xmlp s acc = .done acc :=
  wavLoop_short xmlp s acc h

/-- Witness for C6: three trailing garbage bytes end the walk with the
accumulated state intact. -/
theorem claim6_witness :
    ([1, 2, 3] : List Nat).length < 4 ∧
      wavLoop noXml [1, 2, 3] initState = .done initState :=
  ⟨by decide, claim6_truncated_trailing noXml [1, 2, 3] initState (by decide)⟩

/-- C7: the parse is a pure function of the input bytes (and of the XML
oracle), so parsing the same buffer twice yields structurally equal
outcomes; determinism and idempotence hold by the purity of the
embedding, which mirrors a loop whose only state is its locals. -/
theorem claim7_deterministic (xmlp : List Nat → Option (List Nat))
    (buf : List Nat) :
    displayIxmlFromFile xmlp buf = displayIxmlFromFile xmlp buf := rfl

/-- C8: the 4-byte overall-size field of the RIFF envelope (bytes 4..7)
never influences the outcome: two inputs identical except in those four
bytes parse to identical outcomes. -/
theorem claim8_sizeField_ignored (xmlp : List Nat → Option (List Nat))
    (hd a b t : List Nat) (h4 : hd.length = 4) (ha : a.length = 4)
    (hb : b.length = 4) :
    displayIxmlFromFile xmlp (hd ++ (a ++ t)) =
      displayIxmlFromFile xmlp (hd ++ (b ++ t)) := by
  have hta : (hd ++ (a ++ t)).take 4 = hd := List.take_left' h4
  have htb : (hd ++ (b ++ t)).take 4 = hd := List.take_left' h4
  have hda : ((hd ++ (a ++ t)).drop 4).drop 4 = t := by
    rw [List.drop_left' h4, List.drop_left' ha]
  have hdb : ((hd ++ (b ++ t)).drop 4).drop 4 = t := by
    rw [List.drop_left' h4, List.drop_left' hb]
  have hlena : (hd ++ (a ++ t)).length = 8 + t.length := by
    simp [h4, ha]
    omega
  have hlenb : (hd ++ (b ++ t)).length = 8 + t.length := by
    simp [h4, hb]
    omega
  simp only [displayIxmlFromFile]
  rw [hta, htb, hda, hdb, hlena, hlenb]

/-- Witness for C8: a zero size field and an all-0xFF size field give the
same outcome on an otherwise identical minimal WAVE file. -/
theorem claim8_witness :
    (riffTag.length = 4 ∧ ([0, 0, 0, 0] : List Nat).length = 4 ∧
        ([255, 255, 255, 255] : List Nat).length = 4) ∧
      displayIxmlFromFile noXml (riffTag ++ ([0, 0, 0, 0] ++ waveTag)) =
        displayIxmlFromFile noXml (riffTag ++ ([255, 255, 255, 255] ++ waveTag)) :=
  ⟨⟨by decide, by decide, by decide⟩,
   claim8_sizeField_ignored noXml riffTag [0, 0, 0, 0] [255, 255, 255, 255]
     waveTag (by decide) (by decide) (by decide)⟩

/-- C9: with several iXML chunks, each later fully-read iXML chunk
overwrites the content recorded by earlier ones (the outcome of two
consecutive iXML chunks carries the second payload's content, whatever
the accumulated content was), while found=true is latched as soon as an
iXML id is seen: an iXML chunk whose payload cannot be fully read still
leaves found=true and keeps the previously recorded content. -/
theorem claim9_last_ixml_wins (xmlp : List Nat → Option (List Nat)) :
    (∀ (p1 p2 r : List Nat) (acc : WalkState),
        p1.length < 2147483648 → p2.length < 2147483648 →
        wavLoop xmlp (mkChunk ixmlTag p1 ++ (mkChunk ixmlTag p2 ++ r)) acc =
          wavLoop xmlp r
            { acc with ixmlFound := true,
                       ixmlContent := (xmlp p2).getD p2 }) ∧
      (∀ (k : Nat) (t : List Nat) (acc : WalkState),
        t.length < k → k < 2147483648 →
        wavLoop xmlp (ixmlTag ++ (le32 k ++ t)) acc =
          .done { acc with ixmlFound := true }) := by
  constructor
  · intro p1 p2 r acc h1 h2
    rw [mkChunk_append, wavLoop_ixml_full xmlp p1 (mkChunk ixmlTag p2 ++ r) _ h1,
        mkChunk_append, wavLoop_ixml_full xmlp p2 r _ h2]
  · intro k t acc ht hk
    exact wavLoop_ixml_shortRead xmlp k t acc ht hk

/-- Witness for C9: two one-byte iXML chunks leave the second payload as
the content; a declared size of 5 over a 1-byte remainder latches
found=true and keeps the accumulated content. -/
theorem claim9_witness :
    (([65] : List Nat).length < 2147483648 ∧
        ([66] : List Nat).length < 2147483648 ∧
        wavLoop noXml (mkChunk ixmlTag [65] ++ (mkChunk ixmlTag [66] ++ []))
            initState =
          .done { initState with ixmlFound := true, ixmlContent := [66] }) ∧
      (([9] : List Nat).length < 5 ∧ 5 < 2147483648 ∧
        wavLoop noXml (ixmlTag ++ (le32 5 ++ [9])) initState =
          .done { initState with ixmlFound := true }) := by
  constructor
  · refine ⟨by decide, by decide, ?_⟩
    rw [(claim9_last_ixml_wins noXml).1 [65] [66] [] initState (by decide)
          (by decide), wavLoop_nil]
    rfl
  · exact ⟨by decide, by decide,
      (claim9_last_ixml_wins noXml).2 5 [9] initState (by decide) (by decide)⟩

/-- C1 counterexample input: a well-formed file with an odd-sized (1-byte)
iXML chunk, its RIFF padding byte, and then a well-formed 346-byte bext
chunk starting exactly at the word-aligned next-header position.  Under
the claim the cursor lands on that bext header after the odd iXML chunk. -/
def c1File : List Nat :=
  wavPreamble ++
    (mkChunk ixmlTag [120] ++ ([0] ++ mkChunk bextTag (List.replicate 346 0)))

set_option maxRecDepth 10000 in
/-- C1 is false on the code: after the odd-sized iXML chunk the padding
byte is NOT skipped, the cursor lands one byte early, the bext header is
misread as an unrecognized chunk id, and the bext chunk is lost — yet the
claim's padding rule would have found it. -/
theorem claim1_counterexample :
    (displayIxmlFromFile noXml c1File).ixmlShown = true ∧
      (displayIxmlFromFile noXml c1File).bextShown = false := by
  have hshape : mkChunk ixmlTag [120] ++
      ([0] ++ mkChunk bextTag (List.replicate 346 0)) =
      mkChunk ixmlTag [120] ++
        ([0, 98, 101, 120] ++
          ([116, 90, 1, 0] ++ (0 :: List.replicate 346 0))) := by
    simp [mkChunk, bextTag, le32]
  have h1 : displayIxmlFromFile noXml c1File =
      wavLoop noXml
        (mkChunk ixmlTag [120] ++
          ([0, 98, 101, 120] ++
            ([116, 90, 1, 0] ++ (0 :: List.replicate 346 0))))
        initState := by
    rw [c1File, displayIxml_walk, hshape]
  rw [h1, mkChunk_append,
      wavLoop_ixml_full noXml [120] _ initState (by decide),
      wavLoop_unrecognized_eof noXml [0, 98, 101, 120] [116, 90, 1, 0]
        (0 :: List.replicate 346 0) _ (by decide) (by decide) (by decide)
        (by decide) (by decide) (by decide) (by decide)]
  constructor
  · rfl
  · rfl

/-- C1 as amended: the padding rule is not uniform.  Exactly one padding
byte is skipped after an odd-sized chunk only when the chunk was skipped
as unrecognized — there the cursor does land on the word-aligned next
chunk header; none of the recognized decoders performs a padding skip:
after an odd-sized fully-read iXML chunk the padding byte is left in the
stream, so the cursor lands one byte before the word-aligned next chunk
header, and after an odd-sized fmt or bext chunk the cursor sits at the
fixed layout's end — payload start plus max(16, declared size),
respectively max(346, declared size) — with no padding adjustment. -/
theorem claim1_padding_only_unrecognized (xmlp : List Nat → Option (List Nat)) :
    (∀ (cid p : List Nat) (b : Nat) (r : List Nat) (acc : WalkState),
        cid.length = 4 → cid ≠ fmtTag → cid ≠ bextTag → cid ≠ ixmlTag →
        p.length % 2 = 1 → p.length < 2147483648 →
        wavLoop xmlp (mkChunk cid p ++ (b :: r)) acc =
          wavLoop xmlp r acc) ∧
      (∀ (p : List Nat) (b : Nat) (r : List Nat) (acc : WalkState),
        p.length % 2 = 1 → p.length < 2147483648 →
        wavLoop xmlp (mkChunk ixmlTag p ++ (b :: r)) acc =
          wavLoop xmlp (b :: r)
            { acc with ixmlFound := true,
                       ixmlContent := (xmlp p).getD p }) ∧
      (∀ (k : Nat) (t : List Nat) (acc : WalkState),
        k % 2 = 1 → k < 2147483648 →
        wavLoop xmlp (fmtTag ++ (le32 k ++ t)) acc =
          wavLoop xmlp (t.drop (max 16 k))
            { acc with fmtInfos := acc.fmtInfos ++ [(fmtStep t).1] }) ∧
      (∀ (k : Nat) (t : List Nat) (acc : WalkState),
        k % 2 = 1 → k < 2147483648 →
        wavLoop xmlp (bextTag ++ (le32 k ++ t)) acc =
          wavLoop xmlp (t.drop (max 346 k))
            { acc with bextFound := true,
                       bexts := acc.bexts ++ [(bextStep t).1] }) := by
  refine ⟨?_, ?_, ?_, ?_⟩
  · intro cid p b r acc hc hne1 hne2 hne3 hodd hlt
    rw [mkChunk_append,
        wavLoop_unrecognized xmlp cid p.length p (b :: r) acc hc hne1 hne2
          hne3 rfl hlt, if_pos hodd]
    rfl
  · intro p b r acc hodd hlt
    rw [mkChunk_append, wavLoop_ixml_full xmlp p (b :: r) acc hlt]
  · intro k t acc hodd hlt
    exact wavLoop_fmt xmlp k t acc hlt
  · intro k t acc hodd hlt
    exact wavLoop_bext xmlp k t acc hlt

/-- Witness for the amended C1: a 1-byte unrecognized chunk consumes its
padding byte; a 1-byte iXML chunk leaves the padding byte in the stream;
odd-sized fmt (declared 1) and bext (declared 1) chunks continue from
their fixed layout's end with no padding skip. -/
theorem claim1_witness :
    (([99, 99, 99, 99] : List Nat).length = 4 ∧
        ([7] : List Nat).length % 2 = 1 ∧
        ([7] : List Nat).length < 2147483648 ∧
        wavLoop noXml (mkChunk [99, 99, 99, 99] [7] ++ (0 :: [])) initState =
          wavLoop noXml [] initState) ∧
      (wavLoop noXml (mkChunk ixmlTag [7] ++ (0 :: [])) initState =
        wavLoop noXml (0 :: [])
          { initState with ixmlFound := true, ixmlContent := [7] }) ∧
      ((1 : Nat) % 2 = 1 ∧ (1 : Nat) < 2147483648 ∧
        wavLoop noXml (fmtTag ++ (le32 1 ++ List.replicate 17 0)) initState =
          wavLoop noXml ((List.replicate 17 0).drop (max 16 1))
            { initState with
                fmtInfos :=
                  initState.fmtInfos ++
                    [(fmtStep (List.replicate 17 0)).1] }) ∧
      (wavLoop noXml (bextTag ++ (le32 1 ++ List.replicate 347 0)) initState =
        wavLoop noXml ((List.replicate 347 0).drop (max 346 1))
          { initState with
              bextFound := true,
              bexts :=
                initState.bexts ++
                  [(bextStep (List.replicate 347 0)).1] }) := by
  refine ⟨⟨by decide, by decide, by decide, ?_⟩, ?_,
    ⟨by decide, by decide, ?_⟩, ?_⟩
  · exact (claim1_padding_only_unrecognized noXml).1 [99, 99, 99, 99] [7] 0 []
      initState (by decide) (by decide) (by decide) (by decide) (by decide)
      (by decide)
  · have h := (claim1_padding_only_unrecognized noXml).2.1 [7] 0 [] initState
      (by decide) (by decide)
    simpa [noXml] using h
  · exact (claim1_padding_only_unrecognized noXml).2.2.1 1
      (List.replicate 17 0) initState (by decide) (by decide)
  · exact (claim1_padding_only_unrecognized noXml).2.2.2 1
      (List.replicate 347 0) initState (by decide) (by decide)

/-- C2 counterexample input: a fmt chunk declaring size 0 (less than 16)
with no payload, immediately followed by a well-formed 1-byte iXML chunk
at what is then the next chunk header. -/
def c2File : List Nat :=
  wavPreamble ++ (fmtTag ++ (le32 0 ++ mkChunk ixmlTag [120]))

/-- C2 is false on the code: for a fmt chunk declared smaller than 16
bytes the decoder still reads its fixed 16-byte layout, consuming bytes
beyond the declared payload.  FormatInfo is recorded PRESENT (not
absent), and the cursor does not land at the next chunk header: the
following iXML chunk is swallowed by the overlong fmt read and lost. -/
theorem claim2_counterexample :
    (displayIxmlFromFile noXml c2File).fmtShown = true ∧
      (displayIxmlFromFile noXml c2File).ixmlShown = false := by
  have h1 : displayIxmlFromFile noXml c2File =
      wavLoop noXml (fmtTag ++ (le32 0 ++ mkChunk ixmlTag [120]))
        initState := by
    rw [c2File, displayIxml_walk]
  rw [h1, wavLoop_fmt noXml 0 (mkChunk ixmlTag [120]) initState (by decide)]
  have h2 : (mkChunk ixmlTag [120]).drop (max 16 0) = [] := by decide
  rw [h2, wavLoop_nil]
  constructor
  · rfl
  · rfl

/-- C2 as amended: for a fmt chunk whose declared size is less than 16,
the decoder is not failed: it reads the full 16-byte fixed layout anyway
(past the declared payload), records a FormatInfo from those bytes, the
walk does not abort, and the cursor is left 16 bytes past the payload
start rather than at the next chunk header. -/
theorem claim2_fmt_undersized (xmlp : List Nat → Option (List Nat))
    (k : Nat) (t : List Nat) (acc : WalkState) (hk : k < 16) :
    wavLoop xmlp (fmtTag ++ (le32 k ++ t)) acc =
      wavLoop xmlp (t.drop 16)
        { acc with fmtInfos := acc.fmtInfos ++ [(fmtStep t).1] } := by
  rw [wavLoop_fmt xmlp k t acc (by omega)]
  have h : max 16 k = 16 := by omega
  rw [h]

/-- Witness for the amended C2: with declared size 0 and 16 zero bytes
following, the walk continues 16 bytes later with a recorded (all-zero)
FormatInfo. -/
theorem claim2_witness :
    (0 : Nat) < 16 ∧
      wavLoop noXml (fmtTag ++ (le32 0 ++ List.replicate 16 0)) initState =
        wavLoop noXml ((List.replicate 16 0).drop 16)
          { initState with
              fmtInfos :=
                initState.fmtInfos ++ [(fmtStep (List.replicate 16 0)).1] } :=
  ⟨by decide,
   claim2_fmt_undersized noXml 0 (List.replicate 16 0) initState (by decide)⟩

/-- C3 counterexample input: the spec's own test vector — a bext chunk
declaring 100 bytes (less than 346) with a 100-byte payload, followed by
a well-formed 1-byte iXML chunk. -/
def c3File : List Nat :=
  wavPreamble ++
    (bextTag ++ (le32 100 ++ (List.replicate 100 0 ++ mkChunk ixmlTag [120])))

set_option maxRecDepth 10000 in
/-- C3 is false on the code: a bext chunk declared smaller than 346 bytes
is not a recorded decode failure — the decoder reads its fixed 346-byte
layout regardless, the bext is recorded as found, and the subsequent iXML
chunk is consumed as bext field bytes and never found. -/
theorem claim3_counterexample :
    (displayIxmlFromFile noXml c3File).bextShown = true ∧
      (displayIxmlFromFile noXml c3File).ixmlShown = false := by
  have h1 : displayIxmlFromFile noXml c3File =
      wavLoop noXml
        (bextTag ++ (le32 100 ++ (List.replicate 100 0 ++ mkChunk ixmlTag [120])))
        initState := by
    rw [c3File, displayIxml_walk]
  rw [h1, wavLoop_bext noXml 100 _ initState (by decide)]
  have h2 : (List.replicate 100 0 ++ mkChunk ixmlTag [120]).drop (max 346 100)
      = [] := by
    apply List.drop_eq_nil_of_le
    simp [mkChunk, ixmlTag, le32]
  rw [h2, wavLoop_nil]
  constructor
  · rfl
  · rfl

/-- C3 as amended: for a bext chunk whose declared size is less than 346,
the decoder is not failed and no per-chunk failure is recorded: it reads
the full 346-byte fixed layout anyway (past the declared payload), marks
the bext found, and leaves the cursor 346 bytes past the payload start
(clamped at end of stream) rather than at the next chunk header, so a
chunk following the truncated bext is consumed as bext bytes. -/
theorem claim3_bext_undersized (xmlp : List Nat → Option (List Nat))
    (k : Nat) (t : List Nat) (acc : WalkState) (hk : k < 346) :
    wavLoop xmlp (bextTag ++ (le32 k ++ t)) acc =
      wavLoop xmlp (t.drop 346)
        { acc with bextFound := true,
                   bexts := acc.bexts ++ [(bextStep t).1] } := by
  rw [wavLoop_bext xmlp k t acc (by omega)]
  have h : max 346 k = 346 := by omega
  rw [h]

/-- Witness for the amended C3: a bext chunk declared 100 bytes still
consumes 346 bytes and is recorded as found. -/
theorem claim3_witness :
    (100 : Nat) < 346 ∧
      wavLoop noXml (bextTag ++ (le32 100 ++ List.replicate 346 0)) initState =
        wavLoop noXml ((List.replicate 346 0).drop 346)
          { initState with
              bextFound := true,
              bexts :=
                initState.bexts ++ [(bextStep (List.replicate 346 0)).1] } :=
  ⟨by decide,
   claim3_bext_undersized noXml 100 (List.replicate 346 0) initState
     (by decide)⟩

/-- C4 counterexample input: a chunk whose size field is the spec's
example bytes FF FF FF 7F, read after the envelope. -/
def c4File : List Nat :=
  wavPreamble ++ ([106, 117, 110, 107] ++ [255, 255, 255, 127])

/-- C4's example is false on the code: size-field bytes FF FF FF 7F
decode, little-endian signed 32-bit, to +2147483647 — the maximum
positive value, not a negative one — so the parse does NOT abort with an
invalid-chunk-size error: the declared bytes are skipped (clamped at end
of stream) and the parse terminates normally. -/
theorem claim4_counterexample :
    displayIxmlFromFile noXml c4File = .done initState ∧
      displayIxmlFromFile noXml c4File ≠ .invalidChunkSize := by
  have hshape : ([106, 117, 110, 107] : List Nat) ++ [255, 255, 255, 127] =
      [106, 117, 110, 107] ++ ([255, 255, 255, 127] ++ ([] : List Nat)) := by
    simp
  have h1 : displayIxmlFromFile noXml c4File =
      wavLoop noXml ([106, 117, 110, 107] ++ ([255, 255, 255, 127] ++ []))
        initState := by
    rw [c4File, displayIxml_walk, hshape]
  rw [h1, wavLoop_unrecognized_eof noXml [106, 117, 110, 107]
        [255, 255, 255, 127] [] initState (by decide) (by decide) (by decide)
        (by decide) (by decide) (by decide) (by decide)]
  exact ⟨rfl, by simp⟩

/-- C4 as amended: whenever a reached chunk header's 4-byte little-endian
size field decodes to a negative signed 32-bit value (e.g. bytes
FF FF FF FF, value -1), the whole parse terminates with the
invalid-chunk-size error, discarding any state accumulated from chunks
already decoded; bytes FF FF FF 7F decode to +2147483647, which is not
negative and is accepted. -/
theorem claim4_negative_size (xmlp : List Nat → Option (List Nat))
    (cid szb t : List Nat) (acc : WalkState)
    (hc : cid.length = 4) (hs : szb.length = 4)
    (hneg : toSigned 32 (uintLE szb) < 0) :
    wavLoop xmlp (cid ++ (szb ++ t)) acc = .invalidChunkSize :=
  wavLoop_negSize xmlp cid szb t acc hc hs hneg

/-- Witness for the amended C4: size bytes FF FF FF FF (value -1) abort
the walk even from a non-initial accumulated state. -/
theorem claim4_witness :
    (([106, 117, 110, 107] : List Nat).length = 4 ∧
        ([255, 255, 255, 255] : List Nat).length = 4 ∧
        toSigned 32 (uintLE [255, 255, 255, 255]) < 0) ∧
      wavLoop noXml ([106, 117, 110, 107] ++ ([255, 255, 255, 255] ++ []))
          { initState with ixmlFound := true } =
        .invalidChunkSize :=
  ⟨⟨by decide, by decide, by decide⟩,
   claim4_negative_size noXml [106, 117, 110, 107] [255, 255, 255, 255] []
     { initState with ixmlFound := true } (by decide) (by decide) (by decide)⟩

/-- Iteration counter for the chunk-walk loop: the same recursion as
`wavLoop` (same guards, same dispatch, same stream advance per branch),
returning the number of executed loop bodies instead of the outcome.  A
body that ends the walk (short id read, negative size) counts as the
final iteration; reaching the loop guard on an exhausted stream executes
no body. -/
def wavLoopSteps (xmlp : List Nat → Option (List Nat)) (s : List Nat)
    (acc : WalkState) : Nat :=
  if s.isEmpty then 0
  else if s.length < 4 then 1
  else
    let cid := s.take 4
    let szr := readSigned 4 (s.drop 4)
    let chunkSize := szr.1
    let s2 := szr.2
    if chunkSize < 0 then 1
    else if cid = fmtTag then
      let fr := fmtStep s2
      let s4 := if chunkSize > 16 then fr.2.drop (chunkSize - 16).toNat
                else fr.2
      1 + wavLoopSteps xmlp s4 { acc with fmtInfos := acc.fmtInfos ++ [fr.1] }
    else if cid = bextTag then
      let br := bextStep s2
      let s4 := if chunkSize > 346 then br.2.drop (chunkSize - 346).toNat
                else br.2
      1 + wavLoopSteps xmlp s4
        { acc with bextFound := true, bexts := acc.bexts ++ [br.1] }
    else if cid = ixmlTag then
      let n := chunkSize.toNat
      let chunkData := s2.take n
      let s3 := s2.drop n
      if chunkData.length = n then
        1 + wavLoopSteps xmlp s3
          { acc with ixmlFound := true,
                     ixmlContent := (xmlp chunkData).getD chunkData }
      else
        1 + wavLoopSteps xmlp s3 { acc with ixmlFound := true }
    else
      let s3 := s2.drop chunkSize.toNat
      let s4 := if chunkSize % 2 ≠ 0 then s3.drop 1 else s3
      1 + wavLoopSteps xmlp s4 acc
termination_by s.length
decreasing_by
  all_goals
    simp only [readSigned_snd, fmtStep_snd, bextStep_snd, List.drop_drop]
  all_goals
    first
      | (split <;> (simp only [List.length_drop]; omega))
      | (simp only [List.length_drop]; omega)

theorem wavLoopSteps_le_aux (xmlp : List Nat → Option (List Nat)) :
    ∀ (n : Nat) (s : List Nat) (acc : WalkState), s.length ≤ n →
      wavLoopSteps xmlp s acc ≤ s.length := by
  intro n
  induction n with
  | zero =>
    intro s acc h
    have hnil : s = [] := List.length_eq_zero.mp (Nat.le_zero.mp h)
    subst hnil
    rw [wavLoopSteps.eq_def]
    rfl
  | succ n ih =>
    intro s acc h
    cases s with
    | nil =>
      rw [wavLoopSteps.eq_def]
      rfl
    | cons a l =>
      have key : ∀ (X : List Nat) (acc2 : WalkState),
          X.length ≤ (a :: l).length - 8 →
          1 + wavLoopSteps xmlp X acc2 ≤ (a :: l).length := by
        intro X acc2 hX
        have hXn : X.length ≤ n := by
          simp only [List.length_cons] at hX h
          omega
        have h2 := ih X acc2 hXn
        simp only [List.length_cons] at hX h ⊢
        omega
      rw [wavLoopSteps.eq_def]
      simp only [List.isEmpty_cons, Bool.false_eq_true, if_false,
        readSigned_snd, fmtStep_snd, bextStep_snd, List.drop_drop]
      split_ifs <;>
        first
          | (simp only [List.length_cons]; omega)
          | (apply key
             simp only [List.length_drop, List.length_cons]
             omega)

/-- C10: the chunk walk terminates on every finite input (the loop is a
well-founded recursion on the remaining stream length), and the number of
executed loop iterations is bounded by the input length: every continuing
iteration consumes at least the bytes of the chunk header it read. -/
theorem claim10_walk_terminates (xmlp : List Nat → Option (List Nat))
    (s : List Nat) (acc : WalkState) :
    wavLoopSteps xmlp s acc ≤ s.length :=
  wavLoopSteps_le_aux xmlp s.length s acc (le_refl s.length)
